import Mathlib

/-!
Verification of the UAF result-scraper service (`scraper_api.py`).

The scraper's single endpoint `fetch_uaf_results` performs:
1. token extraction from the login page via the regex
   `document\.getElementById\('token'\)\.value='(.*?)'`;
2. a POST of `{token, Register}`, then a check for the fixed
   authorization-denial phrase in the result body;
3. HTML parsing: student-name extraction with an "Unknown Student"
   fallback, course-table selection by a "Course Code" marker,
   and per-row extraction of fixed cell indices 1, 3, 4, 5, 10, 11.

We embed the HTML documents as a tree (`Node`), the BeautifulSoup
operations used by the code (`find_all` by tag, `find(string=...)`,
`find_parent`, `.text`, `.strip()`) as recursive functions, Python's
`re.search` for the two patterns involved, and the whole request
pipeline as a pure function returning `Except FetchError FetchOk`
together with the payload of the result POST when one is issued.
-/

/-! ### String utilities (Python `str.strip`, substring search, `re.I`) -/

/-- ASCII whitespace, as stripped by Python `str.strip()`. -/
def isSpaceB (c : Char) : Bool :=
  c = ' ' || c = '\t' || c = '\n' || c = '\r' || c = '\x0b' || c = '\x0c'

/-- Python `s.strip()`: drop leading and trailing whitespace. -/
def strip (s : List Char) : List Char :=
  ((s.dropWhile isSpaceB).reverse.dropWhile isSpaceB).reverse

/-- Does `p` occur at the start of `s`? -/
def startsWith : List Char → List Char → Bool
  | [], _ => true
  | _ :: _, [] => false
  | p :: ps, c :: cs => p = c && startsWith ps cs

/-- Does `pat` occur contiguously anywhere in `s` (Python `pat in s`)? -/
def containsSub (pat : List Char) : List Char → Bool
  | [] => startsWith pat []
  | c :: rest => startsWith pat (c :: rest) || containsSub pat rest

/-- Case-insensitive substring search: `re.search(pat, s, re.I)` is a match. -/
def containsCI (pat s : List Char) : Bool :=
  containsSub (pat.map Char.toLower) (s.map Char.toLower)

/-- Decimal rendering of a number, as Python string formatting does. -/
def natChars (n : Nat) : List Char := (Nat.repr n).data

/-- Python rendering of a boolean inside an f-string. -/
def boolChars (b : Bool) : List Char :=
  if b then "True".data else "False".data

/-! ### The HTML tree and the BeautifulSoup operations the code uses -/

mutual
/-- A parsed HTML node: a text node or an element with a tag and children. -/
inductive Node where
  | text (s : List Char) : Node
  | elem (tag : List Char) (children : NodeList) : Node

/-- The children of an element / the top level of a parsed document. -/
inductive NodeList where
  | nil : NodeList
  | cons (n : Node) (rest : NodeList) : NodeList
end

def trTag : List Char := "tr".data
def tdTag : List Char := "td".data
def tableTag : List Char := "table".data

/-- `find_all(tag)` over a sequence of sibling subtrees: every element of the
forest (roots included) whose tag matches, in document order. -/
def findAllTagL (tag : List Char) : NodeList → List Node
  | .nil => []
  | .cons (.text _) rest => findAllTagL tag rest
  | .cons (.elem t cs) rest =>
    (if t = tag then [Node.elem t cs] else []) ++ findAllTagL tag cs
      ++ findAllTagL tag rest

/-- `node.find_all(tag)`: all descendant elements with the tag, document order
(the node itself is never part of its own `find_all` result). -/
def findAllTagN (tag : List Char) : Node → List Node
  | .text _ => []
  | .elem _ cs => findAllTagL tag cs

mutual
/-- `node.text`: concatenation of all descendant strings. -/
def textOfN : Node → List Char
  | .text s => s
  | .elem _ cs => textOfL cs

/-- `.text` over a sequence of sibling subtrees. -/
def textOfL : NodeList → List Char
  | .nil => []
  | .cons n rest => textOfN n ++ textOfL rest
end

/-- All descendant text nodes, in document order. -/
def stringsOfL : NodeList → List (List Char)
  | .nil => []
  | .cons (.text s) rest => s :: stringsOfL rest
  | .cons (.elem _ cs) rest => stringsOfL cs ++ stringsOfL rest

/-- `node.find(string=...)` restricted to an element: descendant strings only. -/
def stringsOfN : Node → List (List Char)
  | .text _ => []
  | .elem _ cs => stringsOfL cs

/-- First descendant string satisfying `p`, document order
(`find(string=re.compile(...))`). -/
def findStringL (p : List Char → Bool) : NodeList → Option (List Char)
  | .nil => none
  | .cons (.text s) rest => if p s then some s else findStringL p rest
  | .cons (.elem _ cs) rest =>
    match findStringL p cs with
    | some s => some s
    | none => findStringL p rest

/-- `t.find(string=...)` on an element: search its descendants. -/
def findStringN (p : List Char → Bool) : Node → Option (List Char)
  | .text _ => none
  | .elem _ cs => findStringL p cs

/-- Like `findStringL` but return the ancestor chain (nearest first) of the
first matching string, supporting `find_parent`. -/
def findStringAncL (p : List Char → Bool) (anc : List Node) :
    NodeList → Option (List Node)
  | .nil => none
  | .cons (.text s) rest =>
    if p s then some anc else findStringAncL p anc rest
  | .cons (.elem t cs) rest =>
    match findStringAncL p (Node.elem t cs :: anc) cs with
    | some r => some r
    | none => findStringAncL p anc rest

/-- Is this element tagged `tag`? -/
def isTagB (tag : List Char) : Node → Bool
  | .text _ => false
  | .elem t _ => t = tag

/-! ### Token extraction
`re.search(r"document\.getElementById\('token'\)\.value='(.*?)'", body)`:
leftmost position where the literal prefix matches and a closing quote
follows with no intervening newline; the capture is lazy, so it stops at
the first closing quote. -/

/-- The single-quote character the token pattern delimits with. -/
def quoteC : Char := '\''

/-- Newline, which `.` in a Python regex does not match. -/
def newlineC : Char := '\n'

/-- The literal part of the token regex before the capture group. -/
def tokenPat : List Char :=
  "document.getElementById(".data ++ [quoteC] ++ "token".data ++ [quoteC]
    ++ ").value=".data ++ [quoteC]

/-- If `p` is a prefix of `s`, return the remainder of `s`. -/
def dropPre : List Char → List Char → Option (List Char)
  | [], s => some s
  | _ :: _, [] => none
  | p :: ps, c :: cs => if p = c then dropPre ps cs else none

/-- The lazy capture `(.*?)'`: characters up to the first closing quote,
failing on a newline or the end of input. -/
def scanTok : List Char → Option (List Char)
  | [] => none
  | c :: rest =>
    if c = quoteC then some []
    else if c = newlineC then none
    else (scanTok rest).map (fun v => c :: v)

/-- Try the token pattern at this exact position. -/
def tokAt (s : List Char) : Option (List Char) :=
  match dropPre tokenPat s with
  | some rest => scanTok rest
  | none => none

/-- `re.search` for the token pattern: try each position left to right. -/
def extractToken : List Char → Option (List Char)
  | [] => none
  | c :: rest =>
    match tokAt (c :: rest) with
    | some v => some v
    | none => extractToken rest

/-! ### HTML extraction (step 3 of `fetch_uaf_results`) -/

/-- Predicate for `re.compile("Student Full Name", re.I)` against a string. -/
def nameP (s : List Char) : Bool := containsCI "Student Full Name".data s

/-- Predicate for `re.compile("Course Code", re.I)` against a string. -/
def markerP (s : List Char) : Bool := containsCI "Course Code".data s

/-- The fallback student name. -/
def unknownStudent : List Char := "Unknown Student".data

/-- Student-name extraction: find the first string matching
"Student Full Name", walk to its enclosing `tr`, and take the stripped text
of that row's second `td`; on any failure keep "Unknown Student". -/
def extractName (doc : NodeList) : List Char :=
  match findStringAncL nameP [] doc with
  | none => unknownStudent
  | some anc =>
    match anc.find? (isTagB trTag) with
    | none => unknownStudent
    | some row =>
      let cells := findAllTagN tdTag row
      if 1 < cells.length then strip (textOfN (cells.getD 1 (Node.text [])))
      else unknownStudent

/-- Does this table contain a string matching "Course Code" (truthiness of
`t.find(string=re.compile("Course Code", re.I))`)? -/
def hasMarker (t : Node) : Bool := (findStringN markerP t).isSome

/-- The `for t in tables: ... break` loop: first table with the marker. -/
def firstMarkedTable : List Node → Option Node
  | [] => none
  | t :: ts => if hasMarker t then some t else firstMarkedTable ts

/-- Course-table selection over the whole document. -/
def targetTable (doc : NodeList) : Option Node :=
  firstMarkedTable (findAllTagL tableTag doc)

/-- One extracted course row (`courses.append({...})`). -/
structure Course where
  semester : List Char
  courseCode : List Char
  courseTitle : List Char
  creditHours : List Char
  total : List Char
  grade : List Char
deriving DecidableEq, Repr

/-- Build the course record from a row's cells (only called with ≥ 12 cells,
so the `getD` defaults are never reached). -/
def courseOfCols (cols : List Node) : Course :=
  { semester := strip (textOfN (cols.getD 1 (Node.text [])))
  , courseCode := strip (textOfN (cols.getD 3 (Node.text [])))
  , courseTitle := strip (textOfN (cols.getD 4 (Node.text [])))
  , creditHours := strip (textOfN (cols.getD 5 (Node.text [])))
  , total := strip (textOfN (cols.getD 10 (Node.text [])))
  , grade := strip (textOfN (cols.getD 11 (Node.text []))) }

/-- The row loop: keep rows with at least 12 `td` cells, in order. -/
def coursesLoop : List Node → List Course
  | [] => []
  | r :: rs =>
    let cols := findAllTagN tdTag r
    if 12 ≤ cols.length then courseOfCols cols :: coursesLoop rs
    else coursesLoop rs

/-- Full course extraction: rows of the target table, if any. -/
def extractCourses (doc : NodeList) : List Course :=
  match targetTable doc with
  | none => []
  | some t => coursesLoop (findAllTagN trTag t)

/-! ### The request pipeline -/

/-- The fixed denial phrase checked on the result body. -/
def authPhrase : List Char := "You are not authorize".data

/-- Form payload of the result POST (`{"token": ..., "Register": ...}`). -/
structure Payload where
  token : List Char
  register : List Char
deriving DecidableEq, Repr

/-- A successful JSON response body. -/
structure FetchOk where
  registration_number : List Char
  full_name : List Char
  program : List Char
  department : List Char
  courses : List Course
deriving DecidableEq, Repr

/-- The classified failures raised by `fetch_uaf_results`. `unclassified` is
the generic `except Exception` path (status 500). -/
inductive FetchError where
  | tokenNotFound : FetchError
  | authorizationDenied : FetchError
  | noResultsFound (detail : List Char) : FetchError
  | unclassified : FetchError
deriving DecidableEq, Repr

/-- The HTTP status each failure is surfaced with. -/
def statusOf : FetchError → Nat
  | .tokenNotFound => 500
  | .authorizationDenied => 403
  | .noResultsFound _ => 404
  | .unclassified => 500

/-- The `debug_info` string built on the empty-course path. -/
def debugInfo (doc : NodeList) : List Char :=
  "Found ".data ++ natChars (findAllTagL tableTag doc).length
    ++ " tables. Target table found: ".data
    ++ boolChars (targetTable doc).isSome ++ ". ".data
    ++ (match targetTable doc with
        | some t => "Rows: ".data ++ natChars (findAllTagN trTag t).length
            ++ ". ".data
        | none => [])

/-- The detail string of the 404 error. -/
def noResultsDetail (doc : NodeList) : List Char :=
  "No course results found. Debug: ".data ++ debugInfo doc

/-- The pipeline after a token was extracted: denial check, parse, course
check. `writeOk` abstracts whether the diagnostic file write on the
empty-course path raises; when it raises, control lands in the generic
`except Exception` handler. -/
def afterToken (reg : List Char) (resultRaw : List Char) (doc : NodeList)
    (writeOk : Bool) : Except FetchError FetchOk :=
  if containsSub authPhrase resultRaw then .error .authorizationDenied
  else if (extractCourses doc).isEmpty then
    (if writeOk then .error (.noResultsFound (noResultsDetail doc))
     else .error .unclassified)
  else .ok ⟨reg, extractName doc, "Inferred Degree".data, [], extractCourses doc⟩

/-- The whole request: the second component records the payload of the
result POST when the pipeline reaches it (`none` = POST never attempted).
`resultRaw` is the raw result body and `doc` its parse. -/
def fetchTrace (reg login resultRaw : List Char) (doc : NodeList)
    (writeOk : Bool) : Except FetchError FetchOk × Option Payload :=
  match extractToken login with
  | none => (.error .tokenNotFound, none)
  | some tok => (afterToken reg resultRaw doc writeOk, some ⟨tok, reg⟩)

/-- The response of `fetch_uaf_results`. -/
def fetchModel (reg login resultRaw : List Char) (doc : NodeList)
    (writeOk : Bool) : Except FetchError FetchOk :=
  (fetchTrace reg login resultRaw doc writeOk).1

/-! ### Spec-side definitions used for refinement comparisons -/

/-- The spec's description of the course-table marker: the table contains a
text node matching "Course Code" case-insensitively. -/
def hasMarkerSpec (t : Node) : Bool := (stringsOfN t).any markerP

/-- The three ways student-name extraction can fail, following the guard
structure of the code: no matching string, no enclosing `tr`, or fewer
than two `td` cells in that row. -/
def nameFailsB (doc : NodeList) : Bool :=
  match findStringAncL nameP [] doc with
  | none => true
  | some anc =>
    match anc.find? (isTagB trTag) with
    | none => true
    | some row => if 1 < (findAllTagN tdTag row).length then false else true

/-! ### Concrete fixtures -/

/-- Build a text node from a string literal. -/
def tl (s : String) : Node := Node.text s.data

/-- Turn a list of subtrees into sibling children. -/
def docOf (cs : List Node) : NodeList := cs.foldr NodeList.cons NodeList.nil

/-- Build an element from a tag and children. -/
def el (t : String) (cs : List Node) : Node := Node.elem t.data (docOf cs)

/-- A data row whose cells carry the given strings. -/
def mkRow (vals : List String) : Node :=
  el "tr" (vals.map (fun v => el "td" [tl v]))

/-- The header row of the fixture course table (one cell only). -/
def wHeadRow : Node := el "tr" [el "td" [tl "Course Code"]]

/-- First fixture data row: 14 cells. -/
def wRow1 : Node :=
  mkRow ["0", " Sem1 ", "2", "CC-101 ", "Intro", "3", "6", "7", "8", "9",
    " 77 ", "A", "x", "y"]

/-- Second fixture data row: 12 cells. -/
def wRow2 : Node :=
  mkRow ["0", "Sem2", "2", "CC-102", "More", "3", "6", "7", "8", "9",
    "88", " B+ "]

/-- A row that is too short to qualify (2 cells). -/
def wShortRow : Node := el "tr" [el "td" [tl "Total"], el "td" [tl "GPA"]]

/-- The fixture course table. -/
def wTable : Node := el "table" [wHeadRow, wRow1, wRow2, wShortRow]

/-- The fixture student-info table. -/
def wNameTable : Node :=
  el "table"
    [el "tr" [el "td" [tl "Student Full Name"], el "td" [tl "  Ali Khan "]]]

/-- A full result document: name table then course table. -/
def wDoc : NodeList := docOf [el "html" [wNameTable, wTable]]

/-- A result document with a marked course table but only a header row. -/
def wEmptyDoc : NodeList := docOf [el "html" [el "table" [wHeadRow]]]

/-- A result document with no course table at all. -/
def wNoTableDoc : NodeList := docOf [el "p" [tl "nothing here"]]

/-- A result document with courses but no student-name row. -/
def wNoNameDoc : NodeList := docOf [el "html" [wTable]]

/-- A fixture registration number. -/
def wReg : List Char := "2020-ag-1234".data

/-- A fixture token value. -/
def wTok : List Char := "abc123".data

/-- A login page containing the token assignment. -/
def wLogin : List Char :=
  "<html><script>".data ++ tokenPat ++ wTok ++ [quoteC]
    ++ "; </script></html>".data

/-- A login page without the token assignment. -/
def wLoginNoTok : List Char := "<html>no assignment here</html>".data

/-- A result body free of the denial phrase. -/
def wRawOk : List Char := "<html>result page</html>".data

/-- A result body carrying the denial phrase. -/
def wRawDenied : List Char :=
  "<html>".data ++ authPhrase ++ "d to see this</html>".data

/-- The record extracted from `wRow1`. -/
def wCourse1 : Course :=
  ⟨"Sem1".data, "CC-101".data, "Intro".data, "3".data, "77".data, "A".data⟩

/-- The record extracted from `wRow2`. -/
def wCourse2 : Course :=
  ⟨"Sem2".data, "CC-102".data, "More".data, "3".data, "88".data, "B+".data⟩

/-- The success response for the full fixture request. -/
def wOk : FetchOk :=
  ⟨wReg, "Ali Khan".data, "Inferred Degree".data, [], [wCourse1, wCourse2]⟩

/-! ### Helper lemmas -/

/-- The row loop is the filter-then-map the spec describes. -/
theorem coursesLoop_eq : (rs : List Node) →
    coursesLoop rs =
      (rs.filter (fun r => 12 ≤ (findAllTagN tdTag r).length)).map
        (fun r => courseOfCols (findAllTagN tdTag r))
  | [] => rfl
  | r :: rs => by
    unfold coursesLoop
    by_cases h : 12 ≤ (findAllTagN tdTag r).length <;>
      simp [h, List.filter_cons, coursesLoop_eq rs]

/-- Dropping a non-qualifying row from the row list leaves the loop output
unchanged. -/
theorem coursesLoop_drop (r : Node) (post : List Node)
    (hshort : (findAllTagN tdTag r).length < 12) :
    (pre : List Node) →
    coursesLoop (pre ++ r :: post) = coursesLoop (pre ++ post)
  | [] => by
    simp only [List.nil_append]
    simp [coursesLoop, Nat.not_le_of_lt hshort]
  | q :: pre => by
    rw [List.cons_append, List.cons_append]
    simp only [coursesLoop]
    rw [coursesLoop_drop r post hshort pre]

/-- The table-selection loop is `List.find?`. -/
theorem firstMarkedTable_eq : (ts : List Node) →
    firstMarkedTable ts = ts.find? hasMarker
  | [] => rfl
  | t :: ts => by
    unfold firstMarkedTable
    cases h : hasMarker t <;> simp [List.find?, h, firstMarkedTable_eq ts]

/-- `find(string=p)` succeeds exactly when some descendant string
satisfies `p`. -/
theorem findStringL_isSome (p : List Char → Bool) : (cs : NodeList) →
    (findStringL p cs).isSome = (stringsOfL cs).any p
  | .nil => rfl
  | .cons (.text s) rest => by
    unfold findStringL stringsOfL
    cases h : p s <;> simp [h, findStringL_isSome p rest]
  | .cons (.elem t cs) rest => by
    unfold findStringL stringsOfL
    have hcs := findStringL_isSome p cs
    cases h : findStringL p cs with
    | some s =>
      rw [h] at hcs
      simp [List.any_append, ← hcs]
    | none =>
      rw [h] at hcs
      simp [List.any_append, ← hcs, findStringL_isSome p rest]

/-- The code's marker test agrees with the spec's phrasing. -/
theorem hasMarker_eq_spec : hasMarker = hasMarkerSpec := by
  funext t
  cases t with
  | text s => rfl
  | elem tag cs =>
    unfold hasMarker hasMarkerSpec findStringN stringsOfN
    exact findStringL_isSome markerP cs

/-- Removing a known prefix succeeds on any extension of it. -/
theorem dropPre_self : (p s : List Char) → dropPre p (p ++ s) = some s
  | [], _ => rfl
  | c :: p, s => by unfold dropPre; simp [dropPre_self p s]

/-- The lazy capture stops at the first quote when the captured part is
quote- and newline-free. -/
theorem scanTok_clean : (v suf : List Char) →
    (∀ c ∈ v, c ≠ quoteC ∧ c ≠ newlineC) →
    scanTok (v ++ quoteC :: suf) = some v
  | [], suf, _ => by unfold scanTok; simp
  | c :: v, suf, h => by
    have hc := h c (List.mem_cons_self c v)
    rw [List.cons_append]
    unfold scanTok
    simp [hc.1, hc.2,
      scanTok_clean v suf (fun x hx => h x (List.mem_cons_of_mem c hx))]

/-- The token pattern matches at the start of a well-formed assignment. -/
theorem tokAt_self (v suf : List Char)
    (h : ∀ c ∈ v, c ≠ quoteC ∧ c ≠ newlineC) :
    tokAt (tokenPat ++ v ++ quoteC :: suf) = some v := by
  unfold tokAt
  rw [List.append_assoc, dropPre_self tokenPat (v ++ quoteC :: suf)]
  exact scanTok_clean v suf h

/-- A position-zero match decides the whole search. -/
theorem extractToken_of_tokAt : (s v : List Char) → tokAt s = some v →
    extractToken s = some v
  | [], v, h => by rw [show tokAt [] = none from rfl] at h; cases h
  | c :: rest, v, h => by unfold extractToken; rw [h]

/-- Token extraction on a body that starts with a well-formed assignment. -/
theorem extractToken_self (v suf : List Char)
    (h : ∀ c ∈ v, c ≠ quoteC ∧ c ≠ newlineC) :
    extractToken (tokenPat ++ v ++ quoteC :: suf) = some v :=
  extractToken_of_tokAt _ v (tokAt_self v suf h)

/-- A successful search still succeeds with extra text in front. -/
theorem extractToken_append_ne : (pre s : List Char) →
    extractToken s ≠ none → extractToken (pre ++ s) ≠ none
  | [], s, h => by simpa using h
  | c :: pre, s, h => by
    rw [List.cons_append]
    unfold extractToken
    cases ht : tokAt (c :: (pre ++ s)) with
    | some v => simp
    | none =>
      simpa using extractToken_append_ne pre s h

/-- Once a token exists, the pipeline can no longer fail with
`tokenNotFound`. -/
theorem afterToken_ne_tokenNotFound (reg raw : List Char) (doc : NodeList)
    (w : Bool) : afterToken reg raw doc w ≠ .error .tokenNotFound := by
  unfold afterToken
  split
  · simp
  · split
    · split <;> simp
    · simp

/-- Shape of every success: helper used by several claims. -/
theorem fetch_ok_fields (reg login raw : List Char) (doc : NodeList)
    (w : Bool) (r : FetchOk)
    (h : fetchModel reg login raw doc w = .ok r) :
    r.registration_number = reg ∧ r.full_name = extractName doc ∧
    r.program = "Inferred Degree".data ∧ r.department = [] ∧
    r.courses = extractCourses doc ∧ r.courses ≠ [] := by
  unfold fetchModel fetchTrace at h
  cases htok : extractToken login with
  | none => rw [htok] at h; cases h
  | some tok =>
    rw [htok] at h
    dsimp only at h
    unfold afterToken at h
    split at h
    · cases h
    · split at h
      · split at h <;> cases h
      · rename_i hne
        cases h
        refine ⟨rfl, rfl, rfl, rfl, rfl, ?_⟩
        intro hnil
        have hnil2 : extractCourses doc = [] := hnil
        exact hne (by simp [hnil2])

/-- The empty-course endgame, for both values of the write flag. -/
theorem fetch_empty_courses (reg login tok raw : List Char) (doc : NodeList)
    (htok : extractToken login = some tok)
    (hphr : containsSub authPhrase raw = false)
    (hemp : extractCourses doc = []) :
    fetchModel reg login raw doc true =
      .error (.noResultsFound (noResultsDetail doc)) ∧
    fetchModel reg login raw doc false = .error .unclassified := by
  unfold fetchModel fetchTrace
  rw [htok]
  dsimp only
  unfold afterToken
  rw [hphr, hemp]
  simp

/-- A failing name extraction leaves the placeholder in place. -/
theorem extractName_of_fails (doc : NodeList) (h : nameFailsB doc = true) :
    extractName doc = unknownStudent := by
  unfold extractName
  unfold nameFailsB at h
  cases h1 : findStringAncL nameP [] doc with
  | none => rfl
  | some anc =>
    rw [h1] at h
    dsimp only at h ⊢
    cases h2 : anc.find? (isTagB trTag) with
    | none => rfl
    | some row =>
      rw [h2] at h
      dsimp only at h ⊢
      split at h
      · cases h
      · rename_i hle
        rw [if_neg hle]

/-! ### The claims -/

/-- C1: for every result-page document whose course-table selection yields a
table, the extracted `courses` list is exactly the qualifying rows (those
with at least 12 cells) of that table, in table order, each mapped to the
record taking cell positions 1, 3, 4, 5, 10, 11 to Semester, Course Code,
Course Title, Credit Hours, Total, Grade, every value stripped of leading
and trailing whitespace; in particular its length is the number of
qualifying rows. -/
theorem c1_courses_extraction (doc : NodeList) (t : Node)
    (h : targetTable doc = some t) :
    extractCourses doc =
      ((findAllTagN trTag t).filter
          (fun r => 12 ≤ (findAllTagN tdTag r).length)).map
        (fun r =>
          { semester :=
              strip (textOfN ((findAllTagN tdTag r).getD 1 (Node.text [])))
            , courseCode :=
              strip (textOfN ((findAllTagN tdTag r).getD 3 (Node.text [])))
            , courseTitle :=
              strip (textOfN ((findAllTagN tdTag r).getD 4 (Node.text [])))
            , creditHours :=
              strip (textOfN ((findAllTagN tdTag r).getD 5 (Node.text [])))
            , total :=
              strip (textOfN ((findAllTagN tdTag r).getD 10 (Node.text [])))
            , grade :=
              strip (textOfN ((findAllTagN tdTag r).getD 11 (Node.text []))) }) ∧
    (extractCourses doc).length =
      ((findAllTagN trTag t).filter
          (fun r => 12 ≤ (findAllTagN tdTag r).length)).length := by
  have hmain : extractCourses doc =
      ((findAllTagN trTag t).filter
          (fun r => 12 ≤ (findAllTagN tdTag r).length)).map
        (fun r => courseOfCols (findAllTagN tdTag r)) := by
    unfold extractCourses
    rw [h]
    dsimp only
    rw [coursesLoop_eq]
  constructor
  · rw [hmain]; rfl
  · rw [hmain, List.length_map]

/-- Witness for C1 on a fixture document with one header row, two qualifying
rows and one short row. -/
theorem c1_witness :
    (extractCourses wDoc).length =
      ((findAllTagN trTag wTable).filter
          (fun r => 12 ≤ (findAllTagN tdTag r).length)).length ∧
    extractCourses wDoc = [wCourse1, wCourse2] :=
  ⟨(c1_courses_extraction wDoc wTable rfl).2, by decide⟩

/-- C2: a success response always carries a non-empty course list and the
full student info (registration number echoed, the extracted or fallback
name, the fixed program placeholder and the empty department); an empty
course list is never returned as success. -/
theorem c2_no_partial_success (reg login raw : List Char) (doc : NodeList)
    (w : Bool) (r : FetchOk)
    (h : fetchModel reg login raw doc w = .ok r) :
    r.courses ≠ [] ∧ r.courses = extractCourses doc ∧
    r.registration_number = reg ∧ r.full_name = extractName doc ∧
    r.program = "Inferred Degree".data ∧ r.department = [] := by
  obtain ⟨h1, h2, h3, h4, h5, h6⟩ := fetch_ok_fields reg login raw doc w r h
  exact ⟨h6, h5, h1, h2, h3, h4⟩

/-- Witness for C2 on a fixture request that succeeds. -/
theorem c2_witness :
    fetchModel wReg wLogin wRawOk wDoc true = Except.ok wOk ∧
    wOk.courses ≠ [] ∧ wOk.registration_number = wReg :=
  have h : fetchModel wReg wLogin wRawOk wDoc true = Except.ok wOk := by rfl
  ⟨h, (c2_no_partial_success wReg wLogin wRawOk wDoc true wOk h).1,
    (c2_no_partial_success wReg wLogin wRawOk wDoc true wOk h).2.2.1⟩

/-- C3: when the token pattern is absent from the login body, the request
fails with `tokenNotFound` (status 500) and the result POST is never
issued (the trace records no payload), whatever the result inputs are. -/
theorem c3_token_not_found (reg login raw : List Char) (doc : NodeList)
    (w : Bool) (h : extractToken login = none) :
    fetchTrace reg login raw doc w =
      (.error .tokenNotFound, none) ∧
    fetchModel reg login raw doc w = .error .tokenNotFound ∧
    statusOf .tokenNotFound = 500 := by
  unfold fetchModel fetchTrace
  rw [h]
  exact ⟨rfl, rfl, rfl⟩

/-- Witness for C3 on a login page with no token assignment. -/
theorem c3_witness :
    fetchTrace wReg wLoginNoTok wRawOk wDoc true =
      (.error .tokenNotFound, none) ∧
    statusOf .tokenNotFound = 500 :=
  have h := c3_token_not_found wReg wLoginNoTok wRawOk wDoc true (by decide)
  ⟨h.1, h.2.2⟩

/-- C4: when the result body contains the fixed denial phrase, the request
fails with `authorizationDenied` (status 403), regardless of the parsed
document - in particular even when it holds a valid course table. -/
theorem c4_authorization_denied (reg login tok raw : List Char)
    (doc : NodeList) (w : Bool)
    (htok : extractToken login = some tok)
    (hphr : containsSub authPhrase raw = true) :
    fetchModel reg login raw doc w = .error .authorizationDenied ∧
    statusOf .authorizationDenied = 403 := by
  refine ⟨?_, rfl⟩
  unfold fetchModel fetchTrace
  rw [htok]
  dsimp only
  unfold afterToken
  simp [hphr]

/-- Witness for C4: the denial body together with a document that does carry
a valid course table. -/
theorem c4_witness :
    fetchModel wReg wLogin wRawDenied wDoc true =
      .error .authorizationDenied ∧
    extractCourses wDoc ≠ [] :=
  ⟨(c4_authorization_denied wReg wLogin wTok wRawDenied wDoc true
      (by decide) (by decide)).1, by decide⟩

/-- C5 counterexample: on the empty-course path the claim says a failing
diagnostic write is not surfaced and does not change the error; but on this
concrete input the response differs between a succeeding and a failing
write - the failing write lands in the generic handler and turns the 404
into a 500. -/
theorem c5_counterexample :
    fetchModel wReg wLogin wRawOk wEmptyDoc false ≠
      fetchModel wReg wLogin wRawOk wEmptyDoc true ∧
    fetchModel wReg wLogin wRawOk wEmptyDoc false = .error .unclassified ∧
    statusOf .unclassified = 500 ∧
    fetchModel wReg wLogin wRawOk wEmptyDoc true =
      .error (.noResultsFound (noResultsDetail wEmptyDoc)) := by
  have h1 : fetchModel wReg wLogin wRawOk wEmptyDoc false =
      .error .unclassified := by rfl
  have h2 : fetchModel wReg wLogin wRawOk wEmptyDoc true =
      .error (.noResultsFound (noResultsDetail wEmptyDoc)) := by rfl
  refine ⟨?_, h1, rfl, h2⟩
  rw [h1, h2]
  intro hcontra
  simp at hcontra

/-- C5 (amended): when the extracted course list is empty and the diagnostic
write succeeds, the request fails with `noResultsFound` (status 404) whose
detail is built from the table count, whether a target table was located
and, if located, its row count; when the diagnostic write raises, the
failure is surfaced instead as the generic 500 `unclassified` error. -/
theorem c5_empty_result (reg login tok raw : List Char) (doc : NodeList)
    (htok : extractToken login = some tok)
    (hphr : containsSub authPhrase raw = false)
    (hemp : extractCourses doc = []) :
    fetchModel reg login raw doc true =
      .error (.noResultsFound (noResultsDetail doc)) ∧
    statusOf (.noResultsFound (noResultsDetail doc)) = 404 ∧
    noResultsDetail doc =
      "No course results found. Debug: ".data
        ++ ("Found ".data ++ natChars (findAllTagL tableTag doc).length
          ++ " tables. Target table found: ".data
          ++ boolChars (targetTable doc).isSome ++ ". ".data
          ++ (match targetTable doc with
              | some t => "Rows: ".data
                  ++ natChars (findAllTagN trTag t).length ++ ". ".data
              | none => [])) ∧
    fetchModel reg login raw doc false = .error .unclassified := by
  obtain ⟨ha, hb⟩ := fetch_empty_courses reg login tok raw doc htok hphr hemp
  exact ⟨ha, rfl, rfl, hb⟩

/-- Witness for the amended C5 on a document whose course table has only a
header row. -/
theorem c5_witness :
    fetchModel wReg wLogin wRawOk wEmptyDoc true =
      .error (.noResultsFound (noResultsDetail wEmptyDoc)) ∧
    noResultsDetail wEmptyDoc =
      ("No course results found. Debug: Found 1 tables. "
        ++ "Target table found: True. Rows: 1. ").data :=
  ⟨(c5_empty_result wReg wLogin wTok wRawOk wEmptyDoc
      (by decide) (by decide) (by decide)).1, by decide⟩

/-- C6: a row of the target table with fewer than 12 cells contributes no
entry to the output: dropping it leaves the extraction unchanged, and it
never appears among the qualifying rows, whatever its textual content. -/
theorem c6_short_row_excluded (doc : NodeList) (t r : Node)
    (pre post : List Node)
    (h : targetTable doc = some t)
    (hrows : findAllTagN trTag t = pre ++ r :: post)
    (hshort : (findAllTagN tdTag r).length < 12) :
    extractCourses doc = coursesLoop (pre ++ post) ∧
    r ∉ (findAllTagN trTag t).filter
      (fun x => 12 ≤ (findAllTagN tdTag x).length) := by
  constructor
  · unfold extractCourses
    rw [h]
    dsimp only
    rw [hrows]
    exact coursesLoop_drop r post hshort pre
  · intro hmem
    have hq := (List.mem_filter.mp hmem).2
    simp at hq
    omega

/-- Witness for C6: the header row of the fixture table is dropped. -/
theorem c6_witness :
    extractCourses wDoc = coursesLoop ([] ++ [wRow1, wRow2, wShortRow]) ∧
    wHeadRow ∉ (findAllTagN trTag wTable).filter
      (fun x => 12 ≤ (findAllTagN tdTag x).length) :=
  c6_short_row_excluded wDoc wTable wHeadRow [] [wRow1, wRow2, wShortRow]
    rfl rfl (by decide)

/-- C7: the course-table selection is the first table, in document order,
containing a text node matching "Course Code" case-insensitively (the
spec-side phrasing `hasMarkerSpec`); when no table matches, extraction
yields zero courses and the request fails with `noResultsFound`. -/
theorem c7_target_table_selection (doc : NodeList)
    (reg login tok raw : List Char)
    (htok : extractToken login = some tok)
    (hphr : containsSub authPhrase raw = false) :
    targetTable doc = (findAllTagL tableTag doc).find? hasMarkerSpec ∧
    (targetTable doc = none →
      extractCourses doc = [] ∧
      fetchModel reg login raw doc true =
        .error (.noResultsFound (noResultsDetail doc))) := by
  constructor
  · unfold targetTable
    rw [firstMarkedTable_eq, hasMarker_eq_spec]
  · intro hnone
    have hemp : extractCourses doc = [] := by
      unfold extractCourses; rw [hnone]
    exact ⟨hemp, (fetch_empty_courses reg login tok raw doc htok hphr hemp).1⟩

/-- Witness for C7 on a document without any course table. -/
theorem c7_witness :
    targetTable wNoTableDoc =
      (findAllTagL tableTag wNoTableDoc).find? hasMarkerSpec ∧
    extractCourses wNoTableDoc = [] ∧
    fetchModel wReg wLogin wRawOk wNoTableDoc true =
      .error (.noResultsFound (noResultsDetail wNoTableDoc)) := by
  obtain ⟨hA, hB⟩ := c7_target_table_selection wNoTableDoc wReg wLogin wTok
    wRawOk (by decide) (by decide)
  exact ⟨hA, (hB rfl).1, (hB rfl).2⟩

/-- C8: when any step of student-name extraction fails (no matching string,
no enclosing row, or fewer than two cells), `full_name` is the fixed
placeholder "Unknown Student", and the request still succeeds with that
placeholder whenever the course list is non-empty. -/
theorem c8_name_fallback (reg login tok raw : List Char) (doc : NodeList)
    (w : Bool)
    (htok : extractToken login = some tok)
    (hphr : containsSub authPhrase raw = false)
    (hname : nameFailsB doc = true)
    (hcourses : extractCourses doc ≠ []) :
    extractName doc = unknownStudent ∧
    fetchModel reg login raw doc w =
      .ok ⟨reg, unknownStudent, "Inferred Degree".data, [],
        extractCourses doc⟩ := by
  have hn := extractName_of_fails doc hname
  refine ⟨hn, ?_⟩
  unfold fetchModel fetchTrace
  rw [htok]
  dsimp only
  unfold afterToken
  rw [hn] at *
  simp [hphr, hcourses, List.isEmpty_iff, hn]

/-- Witness for C8 on a document with courses but no student-name row. -/
theorem c8_witness :
    extractName wNoNameDoc = unknownStudent ∧
    fetchModel wReg wLogin wRawOk wNoNameDoc true =
      .ok ⟨wReg, unknownStudent, "Inferred Degree".data, [],
        extractCourses wNoNameDoc⟩ :=
  c8_name_fallback wReg wLogin wTok wRawOk wNoNameDoc true
    (by decide) (by decide) (by decide) (by decide)

/-- C9: on a login body that carries the token assignment with a captured
value free of quotes and newlines, token extraction returns exactly the
captured substring, exactly that token together with the unmodified
registration number forms the result-POST payload, and every success
response echoes the registration number unmodified. -/
theorem c9_token_roundtrip (v suf reg raw : List Char) (doc : NodeList)
    (w : Bool)
    (hv : ∀ c ∈ v, c ≠ quoteC ∧ c ≠ newlineC) :
    extractToken (tokenPat ++ v ++ quoteC :: suf) = some v ∧
    (fetchTrace reg (tokenPat ++ v ++ quoteC :: suf) raw doc w).2 =
      some ⟨v, reg⟩ ∧
    (∀ r, fetchModel reg (tokenPat ++ v ++ quoteC :: suf) raw doc w =
        .ok r → r.registration_number = reg) := by
  have htok := extractToken_self v suf hv
  refine ⟨htok, ?_, ?_⟩
  · unfold fetchTrace
    rw [htok]
  · intro r h
    exact (fetch_ok_fields _ _ _ _ _ r h).1

/-- Witness for C9 with the fixture token value. -/
theorem c9_witness :
    extractToken (tokenPat ++ wTok ++ quoteC :: "; tail".data) = some wTok ∧
    (fetchTrace wReg (tokenPat ++ wTok ++ quoteC :: "; tail".data) wRawOk
        wDoc true).2 = some ⟨wTok, wReg⟩ := by
  obtain ⟨h1, h2, h3⟩ := c9_token_roundtrip wTok "; tail".data wReg wRawOk
    wDoc true (by decide)
  exact ⟨h1, h2⟩

/-- C10: a token assignment with an empty captured value does not raise
`tokenNotFound`: extraction returns the empty token, the POST is issued
with it, and `tokenNotFound` is impossible whenever the pattern occurs
anywhere in the body with a clean captured value. -/
theorem c10_empty_capture (reg suf raw : List Char) (doc : NodeList)
    (w : Bool) :
    extractToken (tokenPat ++ quoteC :: suf) = some [] ∧
    (fetchTrace reg (tokenPat ++ quoteC :: suf) raw doc w).2 =
      some ⟨[], reg⟩ ∧
    (fetchTrace reg (tokenPat ++ quoteC :: suf) raw doc w).1 ≠
      .error .tokenNotFound ∧
    (∀ pre v suf2, (∀ c ∈ v, c ≠ quoteC ∧ c ≠ newlineC) →
      extractToken (pre ++ (tokenPat ++ v ++ quoteC :: suf2)) ≠ none) := by
  have htok : extractToken (tokenPat ++ quoteC :: suf) = some [] := by
    have h := extractToken_self [] suf
      (fun c hc => absurd hc (List.not_mem_nil c))
    simpa using h
  refine ⟨htok, ?_, ?_, ?_⟩
  · unfold fetchTrace
    rw [htok]
  · unfold fetchTrace
    rw [htok]
    dsimp only
    exact afterToken_ne_tokenNotFound reg raw doc w
  · intro pre v suf2 hv
    refine extractToken_append_ne pre _ ?_
    rw [extractToken_self v suf2 hv]
    simp

/-- Witness for C10: empty captured token on a concrete body, and a body
with extra text before the assignment still yields a token. -/
theorem c10_witness :
    extractToken (tokenPat ++ quoteC :: "; x".data) = some [] ∧
    extractToken ("<html>".data
      ++ (tokenPat ++ "tkn".data ++ quoteC :: "; ".data)) ≠ none := by
  obtain ⟨h1, h2, h3, h4⟩ := c10_empty_capture wReg "; x".data wRawOk wDoc
    true
  exact ⟨h1, h4 "<html>".data "tkn".data "; ".data (by decide)⟩
